import Mathlib

/-!
Verification of the SDV-theta data-processing core against its specification.

The development shallowly embeds the two non-trivial subsystems of the
repository in Lean:

* the indicator-aware value normalizer (`_smart_process_value_field` in
  `theta/utils.py`, and the copy in `theta/comprehensive_evaluator.py`),
* the cross-dataset similarity engine
  (`_calculate_coverage_similarity`, `_calculate_distribution_similarity`,
  `_calculate_peak_similarity` in `theta/comprehensive_evaluator.py`),
* the cardinality reducer (`_reduce_cardinality_smart` in `theta/utils.py`),
* the outlier clamper (`_handle_outliers_smart` in `theta/utils.py`).

Python floats are modelled as exact rationals (`ℚ`); the Python `%` operator on
a positive modulus is `pymod` below, and `int()` truncation toward zero is
`intTrunc`.  External library calls (`pd.to_numeric`, `json.loads`,
`datetime.fromtimestamp`, `scipy.stats.ks_2samp`) are modelled by explicit
oracle fields or by their documented mathematical definition.
-/

/-- Python `a % b` for real operands: the remainder with the sign of `b`
(`a - b * floor (a / b)`).  For `b > 0` the result lies in `[0, b)`. -/
def pymod (a b : ℚ) : ℚ := a - b * ⌊a / b⌋

/-- Python `int(v)` truncation toward zero. -/
def intTrunc (v : ℚ) : ℤ := if v < 0 then -⌊-v⌋ else ⌊v⌋

/-- Model of `datetime.datetime.fromtimestamp(v).hour` with the process
timezone taken as UTC: the hour-of-day of the Unix timestamp `v`.
`fromtimestamp` raises `OverflowError` beyond year 9999
(timestamp `253402300800`), which the source catches and turns into the
default hour `12`. -/
def hourOfTimestamp (v : ℚ) : ℚ :=
  if v < 253402300800 then ((⌊v / 3600⌋ % 24 : ℤ) : ℚ) else 12

/-- The Python substring test `sub in s`, on the underlying character lists. -/
def strContainsSub (s sub : String) : Bool :=
  s.data.tails.any (fun t => sub.data.isPrefixOf t)

/-- ASCII lower-casing of one character, as Python `str.lower` acts on the
ASCII indicator names used by the source. -/
def charLower (c : Char) : Char :=
  if 'A' ≤ c ∧ c ≤ 'Z' then Char.ofNat (c.toNat + 32) else c

/-- ASCII lower-casing of a string (Python `str.lower` on ASCII input). -/
def lowerStr (s : String) : String := String.mk (s.data.map charLower)

/-- The closed taxonomy of indicator categories of spec §4.1, in the order the
`if`/`elif` chain of `_smart_process_value_field` tests them. -/
inductive IndicatorCategory where
  | TIME
  | BLOOD_OXYGEN
  | HEART_RATE
  | PERCENTAGE
  | STEPS
  | DURATION
  | COUNT
  | DISTANCE
  | VO2MAX
  | GENERIC
deriving DecidableEq

/-- Trigger substrings of the TIME category (`theta/utils.py` line 299). -/
def timeKeywords : List String :=
  ["_start_time", "_end_time", "sleep_start", "sleep_end", "_time_",
   "time_avg", "avg_start", "avg_end"]

/-- Trigger substrings of the PERCENTAGE category (`theta/utils.py` line 330). -/
def percentKeywords : List String := ["percentage", "percent", "ratio"]

/-- Trigger substrings of the COUNT category (`theta/utils.py` line 355). -/
def countKeywords : List String := ["count", "_days_", "frequency"]

/-- Classification of an indicator name, reading off the `if`/`elif` chain of
`_smart_process_value_field` (`theta/utils.py` lines 291-374): the chain
lower-cases the name and takes the first matching keyword group. -/
def classify (ind : String) : IndicatorCategory :=
  let s := lowerStr ind
  if timeKeywords.any (fun k => strContainsSub s k) then .TIME
  else if strContainsSub s "blood_oxygen" || strContainsSub s "oxygen" then .BLOOD_OXYGEN
  else if strContainsSub s "heart_rate" || strContainsSub s "hr_" then .HEART_RATE
  else if percentKeywords.any (fun k => strContainsSub s k) then .PERCENTAGE
  else if strContainsSub s "steps" then .STEPS
  else if strContainsSub s "duration" then .DURATION
  else if countKeywords.any (fun k => strContainsSub s k) then .COUNT
  else if strContainsSub s "distance" then .DISTANCE
  else if strContainsSub s "vo2" then .VO2MAX
  else .GENERIC

/-- A raw `value` cell together with the outcomes of the external parsers the
source applies to it: `toNumeric` is the result of the direct
direct `pd.to_numeric` coercing parse (`none` meaning the parse failed,
i.e. the coerced cell is NaN), `strRepr` is Python `str()` of the original
raw value, and `jsonPrimaryValue` is the result of
`float` of the `primary_value` field of `json.loads` applied to `strRepr`
with single quotes replaced by double quotes
(`none` when that parse or lookup fails). -/
structure RawValue where
  toNumeric : Option ℚ
  strRepr : String
  jsonPrimaryValue : Option ℚ

/-- A raw cell that already holds the number `q` (its direct parse succeeds). -/
def numRaw (q : ℚ) : RawValue := ⟨some q, "", none⟩

/-- Step 1 of the normalizer as the source actually implements it
(`theta/utils.py` lines 271-288): the column is first overwritten by
the coercing `pd.to_numeric`; the JSON fallback loop then reads
`original_value` as the `str` of the cell of that same overwritten
column, so at every masked row the cell is NaN and `original_value` is the
literal string `"nan"`, which never contains `"primary_value"`; every
unparsable cell therefore resolves to `0.0`. -/
def processRaw (r : RawValue) : ℚ :=
  match r.toNumeric with
  | some q => q
  | none =>
    let original_value : String := "nan"
    if strContainsSub original_value "primary_value" then
      match r.jsonPrimaryValue with
      | some q => q
      | none => 0
    else 0

/-- Modelled from the spec: §4.1 Step 1 as written, the behavior the dead
JSON branch of `theta/utils.py` lines 277-288 was evidently intended to have,
reading the string representation of the ORIGINAL raw value instead of the
already-coerced NaN cell. -/
def processRawSpec (r : RawValue) : ℚ :=
  match r.toNumeric with
  | some q => q
  | none =>
    if strContainsSub r.strRepr "primary_value" then
      match r.jsonPrimaryValue with
      | some q => q
      | none => 0
    else 0

/-- The per-category range-correction rules of `theta/utils.py` lines
291-375, applied to an already-numeric value. -/
def rangeCorrect (c : IndicatorCategory) (v : ℚ) : ℚ :=
  match c with
  | .TIME =>
    if v > 1000000000 then hourOfTimestamp v
    else if v > 86400 then pymod v 86400 / 3600
    else if v > 24 then pymod v 24
    else if v < 0 then 0
    else v
  | .BLOOD_OXYGEN =>
    if v > 100 then min 100 (max 90 (pymod v 100 + 90))
    else if v < 50 then max 90 (95 + pymod v 10)
    else v
  | .HEART_RATE =>
    if v > 200 then min 200 (max 40 (pymod v 160 + 40))
    else if v < 30 then max 40 (60 + pymod v 20)
    else v
  | .PERCENTAGE =>
    if v > 100 then pymod v 100
    else if v < 0 then pymod |v| 100
    else v
  | .STEPS =>
    if v > 50000 then pymod v 50000
    else if v < 0 then pymod |v| 50000
    else v
  | .DURATION =>
    if v > 86400 then min 1440 (pymod v 86400 / 60)
    else if v > 3600 then min 1440 (v / 60)
    else if v > 1440 then pymod v 1440
    else if v < 0 then 0
    else v
  | .COUNT =>
    let w := if v > 365 then pymod v 365 else if v < 0 then 0 else v
    ((intTrunc w : ℤ) : ℚ)
  | .DISTANCE =>
    if v > 100000 then pymod v 100000
    else if v < 0 then 0
    else v
  | .VO2MAX =>
    if v > 100 then min 80 (max 10 (pymod v 80 + 10))
    else if v < 0 then max 10 (30 + pymod |v| 20)
    else v
  | .GENERIC => v

/-- The per-category range-correction rules of the evaluation-pipeline copy
(`theta/comprehensive_evaluator.py` lines 428-492).  That copy runs the same
keyword chain for the first six categories but has no branches for
count/distance/vo2 indicators (they fall through untouched, like GENERIC),
and its duration branch lacks the `value < 0` clause of the training copy. -/
def evalRangeCorrect (c : IndicatorCategory) (v : ℚ) : ℚ :=
  match c with
  | .TIME =>
    if v > 1000000000 then hourOfTimestamp v
    else if v > 86400 then pymod v 86400 / 3600
    else if v > 24 then pymod v 24
    else if v < 0 then 0
    else v
  | .BLOOD_OXYGEN =>
    if v > 100 then min 100 (max 90 (pymod v 100 + 90))
    else if v < 50 then max 90 (95 + pymod v 10)
    else v
  | .HEART_RATE =>
    if v > 200 then min 200 (max 40 (pymod v 160 + 40))
    else if v < 30 then max 40 (60 + pymod v 20)
    else v
  | .PERCENTAGE =>
    if v > 100 then pymod v 100
    else if v < 0 then pymod |v| 100
    else v
  | .STEPS =>
    if v > 50000 then pymod v 50000
    else if v < 0 then pymod |v| 50000
    else v
  | .DURATION =>
    if v > 86400 then min 1440 (pymod v 86400 / 60)
    else if v > 3600 then min 1440 (v / 60)
    else if v > 1440 then pymod v 1440
    else v
  | _ => v

/-- The full training-pipeline normalizer `utils._smart_process_value_field`
restricted to one record: Step 1 numeric coercion, then the category
correction.  The final `fillna(0)`/`replace(±inf, 0)` lines are identities in
the exact-rational model. -/
def smartProcessValue (ind : String) (r : RawValue) : ℚ :=
  rangeCorrect (classify ind) (processRaw r)

/-- The evaluation-pipeline normalizer
`ComprehensiveEvaluator._smart_process_value_field` restricted to one record
(its Step 1 is line-for-line identical to the training copy, including the
dead JSON branch). -/
def evalSmartProcessValue (ind : String) (r : RawValue) : ℚ :=
  evalRangeCorrect (classify ind) (processRaw r)

/-- Rewriting `pymod` through the fractional part. -/
lemma pymod_eq_mul_fract (a : ℚ) {b : ℚ} (hb : b ≠ 0) :
    pymod a b = b * Int.fract (a / b) := by
  unfold pymod Int.fract
  rw [mul_sub, mul_div_cancel₀ a hb]

/-- Python `%` with a positive modulus lands in `[0, b)`. -/
lemma pymod_bounds (a : ℚ) {b : ℚ} (hb : 0 < b) :
    0 ≤ pymod a b ∧ pymod a b < b := by
  rw [pymod_eq_mul_fract a (ne_of_gt hb)]
  constructor
  · exact mul_nonneg hb.le (Int.fract_nonneg _)
  · calc b * Int.fract (a / b) < b * 1 :=
        mul_lt_mul_of_pos_left (Int.fract_lt_one _) hb
    _ = b := mul_one b

/-- The modelled timestamp hour is always an hour of day. -/
lemma hourOfTimestamp_bounds (v : ℚ) :
    0 ≤ hourOfTimestamp v ∧ hourOfTimestamp v ≤ 23 := by
  unfold hourOfTimestamp
  split_ifs
  · constructor
    · exact_mod_cast Int.emod_nonneg _ (by norm_num)
    · have h := Int.emod_lt_of_pos (⌊v / 3600⌋) (show (0:ℤ) < 24 by norm_num)
      have h' : ⌊v / 3600⌋ % 24 ≤ 23 := by omega
      exact_mod_cast h'
  · norm_num

/-- The range each correction rule actually guarantees, for every
real input (the amended §4.1 ranges): TIME `[0,24]`, BLOOD_OXYGEN `[50,105)`,
HEART_RATE `[30,200]`, PERCENTAGE `[0,100]`, STEPS `[0,50000]`,
DURATION `[0,1440]`, COUNT integers in `[0,365]`, DISTANCE `[0,100000]`,
VO2MAX `[0,100]`, GENERIC unconstrained. -/
def validRange : IndicatorCategory → ℚ → Prop
  | .TIME, v => 0 ≤ v ∧ v ≤ 24
  | .BLOOD_OXYGEN, v => 50 ≤ v ∧ v < 105
  | .HEART_RATE, v => 30 ≤ v ∧ v ≤ 200
  | .PERCENTAGE, v => 0 ≤ v ∧ v ≤ 100
  | .STEPS, v => 0 ≤ v ∧ v ≤ 50000
  | .DURATION, v => 0 ≤ v ∧ v ≤ 1440
  | .COUNT, v => (0 ≤ v ∧ v ≤ 365) ∧ ∃ k : ℤ, v = (k : ℚ)
  | .DISTANCE, v => 0 ≤ v ∧ v ≤ 100000
  | .VO2MAX, v => 0 ≤ v ∧ v ≤ 100
  | .GENERIC, _ => True

/-- Every output of a correction rule lies in the actual range of that rule. -/
lemma rangeCorrect_validRange (c : IndicatorCategory) (v : ℚ) :
    validRange c (rangeCorrect c v) := by
  cases c with
  | TIME =>
    simp only [rangeCorrect, validRange]
    split_ifs with h1 h2 h3 h4
    · exact ⟨(hourOfTimestamp_bounds v).1,
        le_trans (hourOfTimestamp_bounds v).2 (by norm_num)⟩
    · obtain ⟨hm0, hmlt⟩ := pymod_bounds v (show (0:ℚ) < 86400 by norm_num)
      refine ⟨div_nonneg hm0 (by norm_num), ?_⟩
      rw [div_le_iff₀ (show (0:ℚ) < 3600 by norm_num)]
      linarith
    · obtain ⟨hm0, hmlt⟩ := pymod_bounds v (show (0:ℚ) < 24 by norm_num)
      exact ⟨hm0, hmlt.le⟩
    · norm_num
    · exact ⟨not_lt.mp h4, not_lt.mp h3⟩
  | BLOOD_OXYGEN =>
    simp only [rangeCorrect, validRange]
    split_ifs with h1 h2
    · refine ⟨le_min (by norm_num) (le_trans (by norm_num) (le_max_left 90 _)), ?_⟩
      exact lt_of_le_of_lt (min_le_left _ _) (by norm_num)
    · obtain ⟨hm0, hmlt⟩ := pymod_bounds v (show (0:ℚ) < 10 by norm_num)
      refine ⟨le_trans (by norm_num) (le_max_left 90 _), ?_⟩
      exact max_lt (by norm_num) (by linarith)
    · exact ⟨not_lt.mp h2, lt_of_le_of_lt (not_lt.mp h1) (by norm_num)⟩
  | HEART_RATE =>
    simp only [rangeCorrect, validRange]
    split_ifs with h1 h2
    · exact ⟨le_min (by norm_num) (le_trans (by norm_num) (le_max_left 40 _)),
        min_le_left _ _⟩
    · obtain ⟨hm0, hmlt⟩ := pymod_bounds v (show (0:ℚ) < 20 by norm_num)
      exact ⟨le_trans (by norm_num) (le_max_left 40 _),
        max_le (by norm_num) (by linarith)⟩
    · exact ⟨by linarith [not_lt.mp h2], not_lt.mp h1⟩
  | PERCENTAGE =>
    simp only [rangeCorrect, validRange]
    split_ifs with h1 h2
    · obtain ⟨hm0, hmlt⟩ := pymod_bounds v (show (0:ℚ) < 100 by norm_num)
      exact ⟨hm0, hmlt.le⟩
    · obtain ⟨hm0, hmlt⟩ := pymod_bounds |v| (show (0:ℚ) < 100 by norm_num)
      exact ⟨hm0, hmlt.le⟩
    · exact ⟨not_lt.mp h2, not_lt.mp h1⟩
  | STEPS =>
    simp only [rangeCorrect, validRange]
    split_ifs with h1 h2
    · obtain ⟨hm0, hmlt⟩ := pymod_bounds v (show (0:ℚ) < 50000 by norm_num)
      exact ⟨hm0, hmlt.le⟩
    · obtain ⟨hm0, hmlt⟩ := pymod_bounds |v| (show (0:ℚ) < 50000 by norm_num)
      exact ⟨hm0, hmlt.le⟩
    · exact ⟨not_lt.mp h2, not_lt.mp h1⟩
  | DURATION =>
    simp only [rangeCorrect, validRange]
    split_ifs with h1 h2 h3 h4
    · obtain ⟨hm0, hmlt⟩ := pymod_bounds v (show (0:ℚ) < 86400 by norm_num)
      exact ⟨le_min (by norm_num) (div_nonneg hm0 (by norm_num)), min_le_left _ _⟩
    · refine ⟨le_min (by norm_num) (div_nonneg (by linarith) (by norm_num)), min_le_left _ _⟩
    · obtain ⟨hm0, hmlt⟩ := pymod_bounds v (show (0:ℚ) < 1440 by norm_num)
      exact ⟨hm0, hmlt.le⟩
    · norm_num
    · exact ⟨not_lt.mp h4, not_lt.mp h3⟩
  | COUNT =>
    simp only [rangeCorrect, validRange]
    have hw : 0 ≤ (if v > 365 then pymod v 365 else if v < 0 then 0 else v) ∧
        (if v > 365 then pymod v 365 else if v < 0 then 0 else v) ≤ 365 := by
      split_ifs with h1 h2
      · obtain ⟨hm0, hmlt⟩ := pymod_bounds v (show (0:ℚ) < 365 by norm_num)
        exact ⟨hm0, hmlt.le⟩
      · norm_num
      · exact ⟨not_lt.mp h2, not_lt.mp h1⟩
    set w := if v > 365 then pymod v 365 else if v < 0 then 0 else v with hwdef
    have ht : intTrunc w = ⌊w⌋ := if_neg (not_lt.mpr hw.1)
    refine ⟨⟨?_, ?_⟩, ⟨intTrunc w, rfl⟩⟩
    · rw [ht]
      exact_mod_cast Int.floor_nonneg.mpr hw.1
    · rw [ht]
      exact le_trans (Int.floor_le w) hw.2
  | DISTANCE =>
    simp only [rangeCorrect, validRange]
    split_ifs with h1 h2
    · obtain ⟨hm0, hmlt⟩ := pymod_bounds v (show (0:ℚ) < 100000 by norm_num)
      exact ⟨hm0, hmlt.le⟩
    · norm_num
    · exact ⟨not_lt.mp h2, not_lt.mp h1⟩
  | VO2MAX =>
    simp only [rangeCorrect, validRange]
    split_ifs with h1 h2
    · refine ⟨le_min (by norm_num) (le_trans (by norm_num) (le_max_left 10 _)), ?_⟩
      exact le_trans (min_le_left _ _) (by norm_num)
    · obtain ⟨hm0, hmlt⟩ := pymod_bounds |v| (show (0:ℚ) < 20 by norm_num)
      exact ⟨le_trans (by norm_num) (le_max_left 10 _),
        max_le (by norm_num) (by linarith)⟩
    · exact ⟨not_lt.mp h2, not_lt.mp h1⟩
  | GENERIC => trivial

/-- Values already inside the actual range of a category are untouched by the
correction rule of that category (BLOOD_OXYGEN excepted, whose low branch can
output values above 100 that get re-corrected). -/
lemma rangeCorrect_fixed (c : IndicatorCategory) (hc : c ≠ .BLOOD_OXYGEN)
    (w : ℚ) (h : validRange c w) : rangeCorrect c w = w := by
  cases c with
  | TIME =>
    obtain ⟨h0, h24⟩ := h
    simp only [rangeCorrect]
    split_ifs with h1 h2 h3 h4
    · exact absurd h1 (by linarith)
    · exact absurd h2 (by linarith)
    · exact absurd h3 (by linarith)
    · exact absurd h4 (by linarith)
    · rfl
  | BLOOD_OXYGEN => exact absurd rfl hc
  | HEART_RATE =>
    obtain ⟨h0, h200⟩ := h
    simp only [rangeCorrect]
    split_ifs with h1 h2
    · exact absurd h1 (by linarith)
    · exact absurd h2 (by linarith)
    · rfl
  | PERCENTAGE =>
    obtain ⟨h0, h100⟩ := h
    simp only [rangeCorrect]
    split_ifs with h1 h2
    · exact absurd h1 (by linarith)
    · exact absurd h2 (by linarith)
    · rfl
  | STEPS =>
    obtain ⟨h0, hmax⟩ := h
    simp only [rangeCorrect]
    split_ifs with h1 h2
    · exact absurd h1 (by linarith)
    · exact absurd h2 (by linarith)
    · rfl
  | DURATION =>
    obtain ⟨h0, hmax⟩ := h
    simp only [rangeCorrect]
    split_ifs with h1 h2 h3 h4
    · exact absurd h1 (by linarith)
    · exact absurd h2 (by linarith)
    · exact absurd h3 (by linarith)
    · exact absurd h4 (by linarith)
    · rfl
  | COUNT =>
    obtain ⟨⟨h0, h365⟩, ⟨k, rfl⟩⟩ := h
    simp only [rangeCorrect]
    rw [if_neg (not_lt.mpr h365), if_neg (not_lt.mpr h0)]
    unfold intTrunc
    rw [if_neg (not_lt.mpr h0), Int.floor_intCast]
  | DISTANCE =>
    obtain ⟨h0, hmax⟩ := h
    simp only [rangeCorrect]
    split_ifs with h1 h2
    · exact absurd h1 (by linarith)
    · exact absurd h2 (by linarith)
    · rfl
  | VO2MAX =>
    obtain ⟨h0, hmax⟩ := h
    simp only [rangeCorrect]
    split_ifs with h1 h2
    · exact absurd h1 (by linarith)
    · exact absurd h2 (by linarith)
    · rfl
  | GENERIC => rfl

/-- Correction rules other than BLOOD_OXYGEN are idempotent. -/
lemma rangeCorrect_idem (c : IndicatorCategory) (hc : c ≠ .BLOOD_OXYGEN) (v : ℚ) :
    rangeCorrect c (rangeCorrect c v) = rangeCorrect c v :=
  rangeCorrect_fixed c hc _ (rangeCorrect_validRange c v)

/-- C1 (corrected): the claimed §4.1 ranges do not hold — a blood-oxygen
record with the in-between raw value 60 passes through the normalizer
unchanged, landing outside the claimed valid range [90,100]. -/
theorem C1_counterexample :
    classify "blood_oxygen_avg" = IndicatorCategory.BLOOD_OXYGEN ∧
    smartProcessValue "blood_oxygen_avg" (numRaw 60) = 60 ∧
    ¬ (90 ≤ smartProcessValue "blood_oxygen_avg" (numRaw 60)) := by
  have hc : classify "blood_oxygen_avg" = IndicatorCategory.BLOOD_OXYGEN := by decide
  refine ⟨hc, ?_, ?_⟩ <;>
    · simp only [smartProcessValue, hc, processRaw, numRaw, rangeCorrect]
      norm_num

/-- C1 (amended): for every indicator and every raw input, the normalized
value lies in the range the correction rule of its category actually guarantees:
TIME in [0,24], BLOOD_OXYGEN in [50,105), HEART_RATE in [30,200],
PERCENTAGE in [0,100], STEPS in [0,50000], DURATION in [0,1440],
COUNT an integer in [0,365], DISTANCE in [0,100000], VO2MAX in [0,100],
GENERIC unconstrained. -/
theorem C1_amended (ind : String) (r : RawValue) :
    validRange (classify ind) (smartProcessValue ind r) :=
  rangeCorrect_validRange (classify ind) (processRaw r)

/-- C2 (code bug): a raw value whose direct parse fails and whose string form
is a quoted JSON object with field `primary_value = 75.5` must, per the spec,
resolve to 75.5; the code instead resolves it to 0.0, because it stringifies
the already-coerced NaN cell, so the `primary_value` test never fires.  The
spec-modelled Step 1 returns 75.5 on the same input. -/
theorem C2_code_bug :
    processRaw ⟨none, "\x7bprimary_value: 75.5\x7d", some (151/2)⟩ = 0 ∧
    processRawSpec ⟨none, "\x7bprimary_value: 75.5\x7d", some (151/2)⟩ = 151/2 ∧
    strContainsSub "\x7bprimary_value: 75.5\x7d" "primary_value" = true := by
  refine ⟨by decide, ?_, by decide⟩
  simp only [processRawSpec]
  norm_num [strContainsSub]

/-- C3 (corrected): normalization is not idempotent for BLOOD_OXYGEN — raw
value 6 normalizes to 101, and normalizing 101 again yields 91 ≠ 101. -/
theorem C3_counterexample :
    smartProcessValue "blood_oxygen" (numRaw 6) = 101 ∧
    smartProcessValue "blood_oxygen"
      ⟨some (smartProcessValue "blood_oxygen" (numRaw 6)), "", none⟩ = 91 := by
  have hc : classify "blood_oxygen" = IndicatorCategory.BLOOD_OXYGEN := by decide
  have h1 : smartProcessValue "blood_oxygen" (numRaw 6) = 101 := by
    simp only [smartProcessValue, hc, processRaw, numRaw, rangeCorrect]
    norm_num [pymod, min_def, max_def]
  refine ⟨h1, ?_⟩
  rw [h1]
  simp only [smartProcessValue, hc, processRaw, rangeCorrect]
  norm_num [pymod, min_def, max_def]

/-- C3 (amended): for every indicator whose category is not BLOOD_OXYGEN,
the normalizer is idempotent — re-normalizing its own numeric output changes
nothing (and in particular an in-range value is left unchanged); the
BLOOD_OXYGEN rule is the sole exception. -/
theorem C3_amended (ind : String) (r : RawValue) (s : String) (j : Option ℚ)
    (h : classify ind ≠ IndicatorCategory.BLOOD_OXYGEN) :
    smartProcessValue ind ⟨some (smartProcessValue ind r), s, j⟩ =
      smartProcessValue ind r := by
  simp only [smartProcessValue, processRaw]
  exact rangeCorrect_idem _ h _

/-- Witness for C3: a steps indicator, re-normalized, is unchanged. -/
theorem C3_witness :
    smartProcessValue "steps_total"
      ⟨some (smartProcessValue "steps_total" (numRaw 60000)), "", none⟩ =
      smartProcessValue "steps_total" (numRaw 60000) :=
  C3_amended "steps_total" (numRaw 60000) "" none (by decide)

/-- C5 (code bug): the evaluator copy of the value normalizer is not
extensionally equal to the training-pipeline normalizer, despite its
docstring promising consistency: on a COUNT indicator with raw value 400 the
training normalizer yields 400 mod 365 = 35 while the evaluator copy (which
has no count/distance/vo2 branches) returns 400 unchanged. -/
theorem C5_code_bug :
    smartProcessValue "count_days" (numRaw 400) = 35 ∧
    evalSmartProcessValue "count_days" (numRaw 400) = 400 := by
  have hc : classify "count_days" = IndicatorCategory.COUNT := by decide
  constructor
  · simp only [smartProcessValue, hc, processRaw, numRaw, rangeCorrect]
    norm_num [pymod, intTrunc]
  · simp only [evalSmartProcessValue, hc, processRaw, numRaw, evalRangeCorrect]

/-- Empirical CDF of a sample at a point, the building block of the
two-sample Kolmogorov-Smirnov statistic `scipy.stats.ks_2samp` computes for
`_calculate_distribution_similarity`. -/
def ecdfAt (s : List ℚ) (x : ℚ) : ℚ :=
  ((s.filter (fun v => decide (v ≤ x))).length : ℚ) / (s.length : ℚ)

/-- The two-sample KS statistic: the largest gap between the two empirical
CDFs over all sample points. -/
def ksStatistic (o c : List ℚ) : ℚ :=
  ((o ++ c).map (fun x => |ecdfAt o x - ecdfAt c x|)).foldr max 0

/-- The primary branch of `_calculate_distribution_similarity`
(`theta/comprehensive_evaluator.py` lines 506-510): `1 - ks_stat`. -/
def distributionSimilarityKS (o c : List ℚ) : ℚ := 1 - ksStatistic o c

/-- Python `max(a, b, c)` on three arguments. -/
def max3 (a b c : ℚ) : ℚ := max a (max b c)

/-- Mean of a sample (`pandas Series.mean`). -/
def sampleMean (s : List ℚ) : ℚ := s.sum / (s.length : ℚ)

/-- Sample variance with one delta degree of freedom: the square of
`pandas Series.std()`, kept in exactly representable form (the standard
deviation itself is its square root, hence nonnegative, and zero exactly
when the variance is zero). -/
def sampleVar (s : List ℚ) : ℚ :=
  (s.map (fun x => (x - sampleMean s) ^ 2)).sum / ((s.length : ℚ) - 1)

/-- The fallback branch of `_calculate_distribution_similarity`
(`theta/comprehensive_evaluator.py` lines 512-519), as a function of the two
sample means and the two sample standard deviations it is computed from. -/
def distributionSimilarityFallback (mO mC sO sC : ℚ) : ℚ :=
  1 - (|mO - mC| / max3 mO mC 1 + |sO - sC| / max3 sO sC 1) / 2

/-- An empirical CDF value lies in `[0,1]` for a non-empty sample. -/
lemma ecdfAt_bounds {s : List ℚ} (hs : s ≠ []) (x : ℚ) :
    0 ≤ ecdfAt s x ∧ ecdfAt s x ≤ 1 := by
  have hlen : 0 < (s.length : ℚ) := by
    have h := List.length_pos.mpr hs
    exact_mod_cast h
  constructor
  · exact div_nonneg (by positivity) hlen.le
  · rw [ecdfAt, div_le_one hlen]
    exact_mod_cast List.length_filter_le _ _
  
/-- A fold of `max` starting from 0 is nonnegative. -/
lemma foldr_max_nonneg (l : List ℚ) : 0 ≤ l.foldr max 0 := by
  induction l with
  | nil => exact le_refl 0
  | cons a t ih => exact le_trans ih (le_max_right a _)

/-- A fold of `max` from 0 over elements that are all at most 1 is at most 1. -/
lemma foldr_max_le_one (l : List ℚ) (h : ∀ x ∈ l, x ≤ 1) : l.foldr max 0 ≤ 1 := by
  induction l with
  | nil => norm_num
  | cons a t ih =>
    exact max_le (h a (List.mem_cons_self a t))
      (ih fun x hx => h x (List.mem_cons_of_mem a hx))

/-- The KS statistic of two non-empty samples lies in `[0,1]`. -/
lemma ksStatistic_bounds {o c : List ℚ} (ho : o ≠ []) (hc : c ≠ []) :
    0 ≤ ksStatistic o c ∧ ksStatistic o c ≤ 1 := by
  constructor
  · exact foldr_max_nonneg _
  · apply foldr_max_le_one
    intro x hx
    obtain ⟨y, _, rfl⟩ := List.mem_map.mp hx
    obtain ⟨e1a, e1b⟩ := ecdfAt_bounds ho y
    obtain ⟨e2a, e2b⟩ := ecdfAt_bounds hc y
    rw [abs_le]
    constructor <;> linarith

/-- Each normalized-difference term of the fallback lies in `[0,1]` when its
two statistics are nonnegative. -/
lemma div_max3_bounds {a b : ℚ} (ha : 0 ≤ a) (hb : 0 ≤ b) :
    0 ≤ |a - b| / max3 a b 1 ∧ |a - b| / max3 a b 1 ≤ 1 := by
  have h1 : (1 : ℚ) ≤ max3 a b 1 := le_max_of_le_right (le_max_right b 1)
  have hpos : (0 : ℚ) < max3 a b 1 := lt_of_lt_of_le one_pos h1
  constructor
  · exact div_nonneg (abs_nonneg _) hpos.le
  · rw [div_le_one hpos, abs_sub_le_iff]
    constructor
    · calc a - b ≤ a := by linarith
      _ ≤ max3 a b 1 := le_max_left _ _
    · calc b - a ≤ b := by linarith
      _ ≤ max3 a b 1 := le_max_of_le_right (le_max_left _ _)

/-- C4 (corrected): the claim fails on the mean/std fallback — for the
constant samples (-10,-10) and (1,1) (both of sample standard deviation 0)
the fallback similarity evaluates to -9/2, outside [0,1]. -/
theorem C4_counterexample :
    sampleMean [(-10 : ℚ), -10] = -10 ∧ sampleVar [(-10 : ℚ), -10] = 0 ∧
    sampleMean [(1 : ℚ), 1] = 1 ∧ sampleVar [(1 : ℚ), 1] = 0 ∧
    distributionSimilarityFallback (sampleMean [(-10 : ℚ), -10])
      (sampleMean [(1 : ℚ), 1]) 0 0 = -(9 / 2) ∧
    distributionSimilarityFallback (sampleMean [(-10 : ℚ), -10])
      (sampleMean [(1 : ℚ), 1]) 0 0 < 0 := by
  have hm1 : sampleMean [(-10 : ℚ), -10] = -10 := by norm_num [sampleMean]
  have hm2 : sampleMean [(1 : ℚ), 1] = 1 := by norm_num [sampleMean]
  have hf : distributionSimilarityFallback (-10) 1 0 0 = -(9 / 2) := by
    have ha : |(-10 : ℚ) - 1| = 11 := by
      rw [abs_of_nonpos (by norm_num)]
      norm_num
    have hb : |(0 : ℚ) - 0| = 0 := by norm_num
    unfold distributionSimilarityFallback max3
    rw [ha, hb]
    norm_num [max_def]
  refine ⟨hm1, ?_, hm2, ?_, ?_, ?_⟩
  · norm_num [sampleVar, hm1]
  · norm_num [sampleVar, hm2]
  · rw [hm1, hm2, hf]
  · rw [hm1, hm2, hf]
    norm_num

/-- C4 (amended): the KS form of distribution similarity lies in [0,1] for
all non-empty samples, and the mean/std fallback lies in [0,1] whenever both
sample means are nonnegative (standard deviations are always nonnegative);
with a negative mean the fallback can leave [0,1]. -/
theorem C4_amended :
    (∀ o c : List ℚ, o ≠ [] → c ≠ [] →
      0 ≤ distributionSimilarityKS o c ∧ distributionSimilarityKS o c ≤ 1) ∧
    (∀ mO mC sO sC : ℚ, 0 ≤ mO → 0 ≤ mC → 0 ≤ sO → 0 ≤ sC →
      0 ≤ distributionSimilarityFallback mO mC sO sC ∧
        distributionSimilarityFallback mO mC sO sC ≤ 1) := by
  constructor
  · intro o c ho hc
    obtain ⟨h0, h1⟩ := ksStatistic_bounds ho hc
    unfold distributionSimilarityKS
    constructor <;> linarith
  · intro mO mC sO sC h1 h2 h3 h4
    obtain ⟨a0, a1⟩ := div_max3_bounds h1 h2
    obtain ⟨b0, b1⟩ := div_max3_bounds h3 h4
    unfold distributionSimilarityFallback
    constructor <;> linarith

/-- Witness for C4: bounds at concrete samples and statistics. -/
theorem C4_witness :
    (0 ≤ distributionSimilarityKS [(0 : ℚ)] [(1 : ℚ)] ∧
      distributionSimilarityKS [(0 : ℚ)] [(1 : ℚ)] ≤ 1) ∧
    (0 ≤ distributionSimilarityFallback 3 5 2 0 ∧
      distributionSimilarityFallback 3 5 2 0 ≤ 1) :=
  ⟨C4_amended.1 [0] [1] (List.cons_ne_nil 0 []) (List.cons_ne_nil 1 []),
   C4_amended.2 3 5 2 0 (by norm_num) (by norm_num) (by norm_num) (by norm_num)⟩

/-- The Jaccard coverage similarity of `_calculate_coverage_similarity`
(`theta/comprehensive_evaluator.py` lines 498-502), on the two sets of
indicator names; an empty union returns 0 (Python falsy-set guard). -/
def coverageSimilarity (o c : Finset String) : ℚ :=
  if o ∪ c = ∅ then 0 else ((o ∩ c).card : ℚ) / ((o ∪ c).card : ℚ)

/-- C7 (corrected): the claim fails at the empty set — the falsy-set
guard of the code makes coverage(∅,∅) equal 0, not 1. -/
theorem C7_counterexample :
    coverageSimilarity ∅ ∅ = 0 ∧ coverageSimilarity (∅ : Finset String) ∅ ≠ 1 := by
  constructor
  · simp [coverageSimilarity]
  · simp [coverageSimilarity]

/-- C7 (amended): coverage similarity is symmetric and lies in [0,1] for all
indicator-name sets, and coverage(O,O) = 1 for every NON-EMPTY set O (the
code returns 0, not 1, when both sets are empty). -/
theorem C7_amended :
    (∀ o c : Finset String, coverageSimilarity o c = coverageSimilarity c o ∧
      0 ≤ coverageSimilarity o c ∧ coverageSimilarity o c ≤ 1) ∧
    (∀ o : Finset String, o.Nonempty → coverageSimilarity o o = 1) := by
  constructor
  · intro o c
    refine ⟨?_, ?_, ?_⟩
    · simp only [coverageSimilarity, Finset.union_comm o c, Finset.inter_comm o c]
    · unfold coverageSimilarity
      split_ifs
      · exact le_refl 0
      · positivity
    · unfold coverageSimilarity
      split_ifs with h
      · norm_num
      · have hpos : (0 : ℚ) < ((o ∪ c).card : ℚ) := by
          have hnon : (o ∪ c).Nonempty := Finset.nonempty_iff_ne_empty.mpr h
          exact_mod_cast Finset.card_pos.mpr hnon
        rw [div_le_one hpos]
        exact_mod_cast Finset.card_le_card
          (subset_trans Finset.inter_subset_left Finset.subset_union_left)
  · intro o ho
    unfold coverageSimilarity
    rw [Finset.union_self, Finset.inter_self,
      if_neg (Finset.nonempty_iff_ne_empty.mp ho)]
    exact div_self (ne_of_gt (by exact_mod_cast Finset.card_pos.mpr ho))

/-- Witness for C7: a singleton set has self-coverage 1. -/
theorem C7_witness : coverageSimilarity {"heart_rate"} {"heart_rate"} = 1 :=
  C7_amended.2 {"heart_rate"} (Finset.singleton_nonempty _)

/-- The peak-time similarity of `_calculate_peak_similarity`
(`theta/comprehensive_evaluator.py` lines 521-530): absolute hour difference,
folded circularly, scaled to [0,1]. -/
def peakSimilarity (pO pC : ℚ) : ℚ :=
  1 - min |pO - pC| (24 - |pO - pC|) / 12

/-- C8 (confirmed): peak-time similarity equals `1 - d/12` for the circular
distance `d = min(|pO - pC|, 24 - |pO - pC|)`, is symmetric, lies in [0,1]
for hours in 0..23, and peaks 23 and 1 give the same score as peaks 1 and
23, with circular distance 2 (not 22). -/
theorem C8_confirmed :
    (∀ pO pC : ℚ, peakSimilarity pO pC = peakSimilarity pC pO) ∧
    (∀ pO pC : ℚ, 0 ≤ pO → pO ≤ 23 → 0 ≤ pC → pC ≤ 23 →
      0 ≤ peakSimilarity pO pC ∧ peakSimilarity pO pC ≤ 1) ∧
    peakSimilarity 23 1 = peakSimilarity 1 23 ∧
    peakSimilarity 23 1 = 1 - 2 / 12 ∧
    min |(23 : ℚ) - 1| (24 - |(23 : ℚ) - 1|) = 2 := by
  have habs : |(23 : ℚ) - 1| = 22 := by
    rw [abs_of_nonneg (by norm_num)]
    norm_num
  have hmin : min |(23 : ℚ) - 1| (24 - |(23 : ℚ) - 1|) = 2 := by
    rw [habs]
    norm_num [min_def]
  refine ⟨?_, ?_, ?_, ?_, hmin⟩
  · intro pO pC
    unfold peakSimilarity
    rw [abs_sub_comm]
  · intro pO pC h1 h2 h3 h4
    unfold peakSimilarity
    have hd0 : 0 ≤ |pO - pC| := abs_nonneg _
    have hd23 : |pO - pC| ≤ 23 := by
      rw [abs_le]
      constructor <;> linarith
    have hmin0 : 0 ≤ min |pO - pC| (24 - |pO - pC|) := le_min hd0 (by linarith)
    have hmin12 : min |pO - pC| (24 - |pO - pC|) ≤ 12 := by
      rcases le_total |pO - pC| 12 with h | h
      · exact le_trans (min_le_left _ _) h
      · exact le_trans (min_le_right _ _) (by linarith)
    constructor
    · have h12 : min |pO - pC| (24 - |pO - pC|) / 12 ≤ 1 := by
        rw [div_le_one (show (0:ℚ) < 12 by norm_num)]
        linarith
      linarith
    · have h0 : 0 ≤ min |pO - pC| (24 - |pO - pC|) / 12 :=
        div_nonneg hmin0 (by norm_num)
      linarith
  · unfold peakSimilarity
    rw [abs_sub_comm]
  · unfold peakSimilarity
    rw [hmin]

/-- Witness for C8: bounds at concrete peak hours 5 and 7. -/
theorem C8_witness : 0 ≤ peakSimilarity 5 7 ∧ peakSimilarity 5 7 ≤ 1 :=
  C8_confirmed.2.1 5 7 (by norm_num) (by norm_num) (by norm_num) (by norm_num)

/-- The fields `_reduce_cardinality_smart` and `_handle_outliers_smart`
never touch (`theta/utils.py` lines 433 and 512). -/
def protectedFields : List String := ["value", "user_id", "id"]

/-- The distinct values of a column in order of first appearance, the order
underlying `pandas value_counts` (ties in frequency keep first-encountered
order). -/
def firstSeen (col : List String) : List String :=
  col.foldl (fun acc v => if v ∈ acc then acc else acc ++ [v]) []

/-- Each distinct value paired with its number of occurrences. -/
def countsOf (col : List String) : List (String × Nat) :=
  (firstSeen col).map (fun v => (v, col.count v))

/-- `value_counts()`: distinct values with counts, sorted by descending
count; the insertion sort with a non-strict comparison is stable, so ties
stay in first-appearance order. -/
def sortedCounts (col : List String) : List (String × Nat) :=
  (countsOf col).insertionSort (fun a b => b.2 ≤ a.2)

/-- The boolean-mask filter `value_counts[cumsum <= threshold]` of the
adaptive strategy (`theta/utils.py` lines 456-459): an entry is kept when
its inclusive cumulative count is at most 90% of the row count `n`
(`10 * cum ≤ 9 * n` in exact arithmetic). -/
def cumFilter (n : Nat) : Nat → List (String × Nat) → List String
  | _, [] => []
  | acc, p :: rest =>
    if 10 * (acc + p.2) ≤ 9 * n then p.1 :: cumFilter n (acc + p.2) rest
    else cumFilter n (acc + p.2) rest

/-- The greedy maximal-prefix reading of the same rule: take entries while
the inclusive cumulative count stays at most 90% of `n`, stop at the first
failure.  This is the "maximal prefix of the descending-frequency order with
cumulative count ≤ 90%" that the amended C6 describes. -/
def cumTakeWhile (n : Nat) : Nat → List (String × Nat) → List String
  | _, [] => []
  | acc, p :: rest =>
    if 10 * (acc + p.2) ≤ 9 * n then p.1 :: cumTakeWhile n (acc + p.2) rest
    else []

/-- The values the adaptive strategy keeps. -/
def adaptiveKeep (col : List String) : List String :=
  cumFilter col.length 0 (sortedCounts col)

/-- `value_counts().head(k).index`: the `k` most frequent values. -/
def topVals (k : Nat) (col : List String) : List String :=
  ((sortedCounts col).take k).map Prod.fst

/-- `nunique()`: the number of distinct values of a column. -/
def numDistinct (col : List String) : Nat := col.toFinset.card

/-- One column of `_reduce_cardinality_smart` (`theta/utils.py` lines
428-470): protected fields and columns with at most 50 distinct values are
untouched; otherwise the strategy keeps its chosen values and replaces every
other value with the sentinel `"other"`; an unrecognized strategy changes
nothing. -/
def reduceColumn (name strategy : String) (col : List String) : List String :=
  if name ∈ protectedFields then col
  else if 50 < numDistinct col then
    if strategy = "frequency_based" then
      col.map (fun v => if v ∈ topVals 30 col then v else "other")
    else if strategy = "adaptive" then
      col.map (fun v => if v ∈ adaptiveKeep col then v else "other")
    else if strategy = "simple" then
      col.map (fun v => if v ∈ topVals 15 col then v else "other")
    else col
  else col

/-- Once the cumulative count has passed the threshold it never returns
below it, so the filter keeps nothing further. -/
lemma cumFilter_eq_nil (n : Nat) :
    ∀ (l : List (String × Nat)) (acc : Nat), 9 * n < 10 * acc →
      cumFilter n acc l = [] := by
  intro l
  induction l with
  | nil => intro acc _; rfl
  | cons p rest ih =>
    intro acc h
    simp only [cumFilter]
    rw [if_neg (by omega)]
    exact ih (acc + p.2) (by omega)

/-- The boolean-mask filter over the monotone cumulative sum equals the
greedy maximal prefix: the kept set is exactly the longest prefix of the
descending-frequency order whose cumulative count stays within 90%. -/
lemma cumFilter_eq_cumTakeWhile (n : Nat) :
    ∀ (l : List (String × Nat)) (acc : Nat),
      cumFilter n acc l = cumTakeWhile n acc l := by
  intro l
  induction l with
  | nil => intro _; rfl
  | cons p rest ih =>
    intro acc
    simp only [cumFilter, cumTakeWhile]
    split_ifs with h
    · rw [ih]
    · exact cumFilter_eq_nil n rest (acc + p.2) (by omega)

/-- The distinct values of a mapped column are the image of the originals. -/
lemma list_toFinset_map (col : List String) (f : String → String) :
    (col.map f).toFinset = col.toFinset.image f := by
  ext x
  simp [List.mem_map]

/-- Keep-or-sentinel mapping cannot increase the distinct-value count. -/
lemma mapKeep_card (col : List String) (f : String → String) :
    (col.map f).toFinset.card ≤ col.toFinset.card := by
  rw [list_toFinset_map]
  exact Finset.card_image_le

/-- Keep-or-sentinel mapping introduces at most the sentinel as a new value. -/
lemma mapKeep_subset (col keep : List String) :
    (col.map (fun v => if v ∈ keep then v else "other")).toFinset ⊆
      col.toFinset ∪ {"other"} := by
  rw [list_toFinset_map]
  intro x hx
  obtain ⟨v, hv, rfl⟩ := Finset.mem_image.mp hx
  by_cases h : v ∈ keep
  · rw [if_pos h]
    exact Finset.mem_union_left _ hv
  · rw [if_neg h]
    exact Finset.mem_union_right _ (Finset.mem_singleton_self _)

/-- The concrete column refuting C6: 46 copies of `"a"` followed by 50
distinct one-character values, 96 rows and 51 distinct values in all.  The
90% threshold is 86.4 rows; the cumulative counts after `"a"` are 46, 47,
48, ..., so the filter keeps `"a"` and 40 singletons, covering only 86 rows
= 89.6% of the data. -/
def col96 : List String :=
  List.replicate 46 "a" ++ (List.range 50).map (fun i => String.mk [Char.ofNat (200 + i)])

/-- The 41 values the adaptive strategy actually keeps on `col96`. -/
def kept41 : List String :=
  "a" :: (List.range 40).map (fun i => String.mk [Char.ofNat (200 + i)])

set_option maxRecDepth 40000 in
/-- C6 (corrected): on a 96-row column with 51 distinct values the adaptive
strategy keeps a value set covering only 86 of 96 rows, strictly less than
90% — so the kept set is not a prefix whose cumulative count covers at least
90% of rows, contrary to the claim. -/
theorem C6_counterexample :
    50 < numDistinct col96 ∧
    adaptiveKeep col96 = kept41 ∧
    10 * (col96.filter (fun v => decide (v ∈ kept41))).length < 9 * col96.length := by
  refine ⟨by decide, by decide, by decide⟩

/-- C6 (amended): under the adaptive strategy the kept set is the MAXIMAL
prefix of the descending-frequency order whose cumulative count is at most
90% of the rows (it may therefore cover strictly less than 90%), and on a
non-protected column with more than 50 distinct values every value outside
that prefix is replaced by the sentinel `"other"`. -/
theorem C6_amended :
    (∀ col : List String,
      adaptiveKeep col = cumTakeWhile col.length 0 (sortedCounts col)) ∧
    (∀ (name : String) (col : List String),
      ¬ name ∈ protectedFields → 50 < numDistinct col →
      reduceColumn name "adaptive" col =
        col.map (fun v => if v ∈ adaptiveKeep col then v else "other")) := by
  constructor
  · intro col
    exact cumFilter_eq_cumTakeWhile _ _ _
  · intro name col hp h50
    unfold reduceColumn
    rw [if_neg hp, if_pos h50, if_neg (by decide), if_pos rfl]

set_option maxRecDepth 40000 in
/-- Witness for C6: the amended replacement rule at the concrete column. -/
theorem C6_witness :
    reduceColumn "indicator" "adaptive" col96 =
      col96.map (fun v => if v ∈ adaptiveKeep col96 then v else "other") :=
  C6_amended.2 "indicator" col96 (by decide) (by decide)

/-- C9 (confirmed): for every column and strategy, cardinality reduction
never increases the number of distinct values, introduces at most the
sentinel `"other"` as a new value, and leaves protected columns unchanged. -/
theorem C9_invariants (name strategy : String) (col : List String) :
    numDistinct (reduceColumn name strategy col) ≤ numDistinct col ∧
    (reduceColumn name strategy col).toFinset ⊆ col.toFinset ∪ {"other"} ∧
    (name ∈ protectedFields → reduceColumn name strategy col = col) := by
  unfold reduceColumn numDistinct
  split_ifs with h1 h2 h3 h4 h5
  · exact ⟨le_refl _, Finset.subset_union_left, fun _ => rfl⟩
  · exact ⟨mapKeep_card _ _, mapKeep_subset _ _, fun hmem => absurd hmem h1⟩
  · exact ⟨mapKeep_card _ _, mapKeep_subset _ _, fun hmem => absurd hmem h1⟩
  · exact ⟨mapKeep_card _ _, mapKeep_subset _ _, fun hmem => absurd hmem h1⟩
  · exact ⟨le_refl _, Finset.subset_union_left, fun _ => rfl⟩
  · exact ⟨le_refl _, Finset.subset_union_left, fun _ => rfl⟩

/-- Witness for C9: a protected column is returned unchanged. -/
theorem C9_witness : reduceColumn "value" "adaptive" ["a", "b"] = ["a", "b"] :=
  (C9_invariants "value" "adaptive" ["a", "b"]).2.2 (by decide)

/-- Ascending sort of a numeric column, as `pandas` quantile sorts it. -/
def sortAsc (l : List ℚ) : List ℚ := l.insertionSort (fun a b => a ≤ b)

/-- `pandas Series.quantile(q)` with the default linear interpolation: with
the sorted values x_0 ≤ ... ≤ x_(n-1) and position `pos = q*(n-1)`,
`i = floor pos`, the result is `x_i + (pos - i) * (x_(i+1) - x_i)`. -/
def pandasQuantile (l : List ℚ) (q : ℚ) : ℚ :=
  let s := sortAsc l
  if s.length = 0 then 0
  else
    let pos := q * ((s.length : ℚ) - 1)
    let i := (⌊pos⌋).toNat
    let x0 := s.getD i 0
    let x1 := s.getD (i + 1) x0
    x0 + (pos - (⌊pos⌋ : ℚ)) * (x1 - x0)

/-- First quartile `Q1 = quantile(0.25)` (`theta/utils.py` line 525). -/
def q1Of (col : List ℚ) : ℚ := pandasQuantile col (1 / 4)

/-- Third quartile `Q3 = quantile(0.75)` (`theta/utils.py` line 526). -/
def q3Of (col : List ℚ) : ℚ := pandasQuantile col (3 / 4)

/-- Interquartile range `IQR = Q3 - Q1` (`theta/utils.py` line 527). -/
def iqrOf (col : List ℚ) : ℚ := q3Of col - q1Of col

/-- Lower clamping bound `Q1 - 1.5*IQR` (`theta/utils.py` line 530). -/
def lowerFence (col : List ℚ) : ℚ := q1Of col - 3 / 2 * iqrOf col

/-- Upper clamping bound `Q3 + 1.5*IQR` (`theta/utils.py` line 531). -/
def upperFence (col : List ℚ) : ℚ := q3Of col + 3 / 2 * iqrOf col

/-- The proportion of values outside the IQR band
(`outliers.sum() / len(df)`, `theta/utils.py` lines 534-535). -/
def outlierFrac (col : List ℚ) : ℚ :=
  ((col.filter
    (fun v => decide (v < lowerFence col) || decide (upperFence col < v))).length : ℚ) /
    (col.length : ℚ)

/-- One numeric column of `_handle_outliers_smart` (`theta/utils.py` lines
507-544): protected fields are skipped, zero-variance columns are skipped
(`std() == 0` holds exactly when the variance is zero), a non-positive IQR
is skipped, and clamping to the nearer fence happens only when the outlier
proportion is strictly between 0 and 10%.  The two sequential `df.loc`
assignments clamp low values to the lower fence and high values to the upper
fence; with `IQR > 0` the fences are distinct, so the combined effect is a
single pointwise clamp. -/
def handleOutliersColumn (name : String) (col : List ℚ) : List ℚ :=
  if name ∈ protectedFields then col
  else if sampleVar col = 0 then col
  else if 0 < iqrOf col then
    if 0 < outlierFrac col ∧ outlierFrac col < 1 / 10 then
      col.map (fun v =>
        if v < lowerFence col then lowerFence col
        else if upperFence col < v then upperFence col
        else v)
    else col
  else col

/-- C10 (confirmed): outlier clamping preserves the number of rows; a column
whose outlier proportion is zero or at least 10% is returned entirely
unchanged; and every element of the output is either the original element
(when it lies inside the IQR band) or the nearer fence (when it lies
outside). -/
theorem C10_frame (name : String) (col : List ℚ) :
    (handleOutliersColumn name col).length = col.length ∧
    ((outlierFrac col = 0 ∨ 1 / 10 ≤ outlierFrac col) →
      handleOutliersColumn name col = col) ∧
    (∀ i : Nat, i < col.length →
      (handleOutliersColumn name col).getD i 0 = col.getD i 0 ∨
      (col.getD i 0 < lowerFence col ∧
        (handleOutliersColumn name col).getD i 0 = lowerFence col) ∨
      (upperFence col < col.getD i 0 ∧
        (handleOutliersColumn name col).getD i 0 = upperFence col)) := by
  unfold handleOutliersColumn
  split_ifs with h1 h2 h3 h4
  · exact ⟨rfl, fun _ => rfl, fun i _ => Or.inl rfl⟩
  · exact ⟨rfl, fun _ => rfl, fun i _ => Or.inl rfl⟩
  · refine ⟨List.length_map _ _, ?_, ?_⟩
    · intro hcase
      rcases hcase with h0 | hge
      · exact absurd h4.1 (by rw [h0]; exact lt_irrefl 0)
      · exact absurd h4.2 (not_lt.mpr hge)
    · intro i hi
      have hlen : i < (col.map (fun v =>
          if v < lowerFence col then lowerFence col
          else if upperFence col < v then upperFence col
          else v)).length := by
        rw [List.length_map]
        exact hi
      rw [List.getD_eq_getElem _ _ hlen, List.getD_eq_getElem _ _ hi,
        List.getElem_map]
      by_cases hx1 : col[i] < lowerFence col
      · exact Or.inr (Or.inl ⟨hx1, by rw [if_pos hx1]⟩)
      · by_cases hx2 : upperFence col < col[i]
        · exact Or.inr (Or.inr ⟨hx2, by rw [if_neg hx1, if_pos hx2]⟩)
        · exact Or.inl (by rw [if_neg hx1, if_neg hx2])
  · exact ⟨rfl, fun _ => rfl, fun i _ => Or.inl rfl⟩
  · exact ⟨rfl, fun _ => rfl, fun i _ => Or.inl rfl⟩

/-- Witness for C10: the no-op guarantee at the empty column (outlier
proportion 0) and the pointwise clamp characterization at a concrete
two-element column and index. -/
theorem C10_witness :
    handleOutliersColumn "hour" ([] : List ℚ) = [] ∧
    ((handleOutliersColumn "hour" [(0 : ℚ), 1]).getD 0 0 =
        ([(0 : ℚ), 1]).getD 0 0 ∨
      (([(0 : ℚ), 1]).getD 0 0 < lowerFence [(0 : ℚ), 1] ∧
        (handleOutliersColumn "hour" [(0 : ℚ), 1]).getD 0 0 =
          lowerFence [(0 : ℚ), 1]) ∨
      (upperFence [(0 : ℚ), 1] < ([(0 : ℚ), 1]).getD 0 0 ∧
        (handleOutliersColumn "hour" [(0 : ℚ), 1]).getD 0 0 =
          upperFence [(0 : ℚ), 1])) :=
  ⟨(C10_frame "hour" []).2.1 (Or.inl (by simp [outlierFrac])),
   (C10_frame "hour" [(0 : ℚ), 1]).2.2 0 (by norm_num)⟩
